import Mathlib

/-!
Verification of the QuizzMe quiz application (src/streamlit_app.py).

The development shallowly embeds the two logic-bearing subsystems of the
program:

* the question-generation pipeline after the network call — the JSON
  extraction function (parse_ai_response, lines 73-85) and the validation
  and truncation logic of generate_questions_from_ai (lines 151-157);
* the quiz session state machine of run_quiz_view (lines 247-309), the
  initial state (initialize_quiz_state, lines 166-176), the reward
  computation (lines 316-321), and the session-start error handling
  (lines 209-225).

Python/JSON values are modelled by the inductive PyValue; json.loads (a
standard-library collaborator of the code) is modelled by an executable
JSON parser, json_loads.  Scores are modelled by rationals: the program
only ever adds 1.0 and 0.5 to a float starting at 0.0, and every such sum
is exactly representable in binary floating point, so rational arithmetic
is exact for every reachable score.
-/

/-- A Python value as produced by json.loads: null, booleans, numbers,
strings, lists and dicts (dicts are kept as association lists in textual
order; only key membership and lookup are used by the program). -/
inductive PyValue where
  | null : PyValue
  | bool : Bool → PyValue
  | num : ℚ → PyValue
  | str : String → PyValue
  | list : List PyValue → PyValue
  | dict : List (String × PyValue) → PyValue

/-- JSON whitespace, as accepted by Python's json module:
space, tab, newline, carriage return. -/
def json_ws (c : Char) : Bool :=
  c = ' ' ∨ c = '\t' ∨ c = '\n' ∨ c = '\r'

/-- Drop leading JSON whitespace. -/
def skip_ws : List Char → List Char
  | [] => []
  | c :: cs => if json_ws c then skip_ws cs else c :: cs

/-- Value of a hexadecimal digit. -/
def hex_digit (c : Char) : Option Nat :=
  if '0' ≤ c ∧ c ≤ '9' then some (c.toNat - '0'.toNat)
  else if 'a' ≤ c ∧ c ≤ 'f' then some (c.toNat - 'a'.toNat + 10)
  else if 'A' ≤ c ∧ c ≤ 'F' then some (c.toNat - 'A'.toNat + 10)
  else none

/-- Body of a JSON string, after the opening quote: returns the decoded
characters and the input after the closing quote.  Handles the escape
sequences of the JSON grammar; rejects raw control characters, as
Python's strict json.loads does.  (Surrogate-pair combination is not
modelled; none of the program's data needs it.) -/
def parse_string_core (acc : List Char) : List Char → Option (String × List Char)
  | [] => none
  | '"' :: rest => some (String.mk acc.reverse, rest)
  | '\\' :: '"' :: r => parse_string_core ('"' :: acc) r
  | '\\' :: '\\' :: r => parse_string_core ('\\' :: acc) r
  | '\\' :: '/' :: r => parse_string_core ('/' :: acc) r
  | '\\' :: 'b' :: r => parse_string_core ('\x08' :: acc) r
  | '\\' :: 'f' :: r => parse_string_core ('\x0c' :: acc) r
  | '\\' :: 'n' :: r => parse_string_core ('\n' :: acc) r
  | '\\' :: 'r' :: r => parse_string_core ('\x0d' :: acc) r
  | '\\' :: 't' :: r => parse_string_core ('\t' :: acc) r
  | '\\' :: 'u' :: a :: b :: c :: d :: r =>
      match hex_digit a, hex_digit b, hex_digit c, hex_digit d with
      | some ha, some hb, some hc, some hd =>
          parse_string_core (Char.ofNat (((ha * 16 + hb) * 16 + hc) * 16 + hd) :: acc) r
      | _, _, _, _ => none
  | '\\' :: _ => none
  | c :: rest => if c.toNat < 32 then none else parse_string_core (c :: acc) rest

/-- Split off a maximal prefix of decimal digits. -/
def take_digits : List Char → (List Char × List Char)
  | [] => ([], [])
  | c :: cs =>
      if c.isDigit then
        let p := take_digits cs
        (c :: p.1, p.2)
      else ([], c :: cs)

/-- Numeric value of a digit string. -/
def digits_to_nat (ds : List Char) : Nat :=
  ds.foldl (fun n c => n * 10 + (c.toNat - '0'.toNat)) 0

/-- A JSON number starting at the head of the input (grammar of RFC 8259,
as enforced by Python's json.loads: optional minus, integer part without
leading zeros, optional fraction, optional exponent).  The value is kept
as an exact rational; the program never inspects numeric values, so the
binary-float rounding of Python's parser is irrelevant here. -/
def parse_number (s : List Char) : Option (PyValue × List Char) :=
  let (neg, s1) := match s with
    | '-' :: r => (true, r)
    | _ => (false, s)
  let (ip, s2) := take_digits s1
  match ip with
  | [] => none
  | '0' :: _ :: _ => none
  | _ =>
    let (fp, s3) := match s2 with
      | '.' :: r =>
          let p := take_digits r
          if p.1.isEmpty then ([], '.' :: r) else (p.1, p.2)
      | _ => ([], s2)
    if s3 ≠ s2 ∧ fp = [] then none else
    let (ex, s4) : (Option Int × List Char) := match s3 with
      | 'e' :: '-' :: r =>
          let p := take_digits r
          if p.1.isEmpty then (none, s3) else (some (-(digits_to_nat p.1 : Int)), p.2)
      | 'E' :: '-' :: r =>
          let p := take_digits r
          if p.1.isEmpty then (none, s3) else (some (-(digits_to_nat p.1 : Int)), p.2)
      | 'e' :: '+' :: r =>
          let p := take_digits r
          if p.1.isEmpty then (none, s3) else (some (digits_to_nat p.1 : Int), p.2)
      | 'E' :: '+' :: r =>
          let p := take_digits r
          if p.1.isEmpty then (none, s3) else (some (digits_to_nat p.1 : Int), p.2)
      | 'e' :: r =>
          let p := take_digits r
          if p.1.isEmpty then (none, s3) else (some (digits_to_nat p.1 : Int), p.2)
      | 'E' :: r =>
          let p := take_digits r
          if p.1.isEmpty then (none, s3) else (some (digits_to_nat p.1 : Int), p.2)
      | _ => (none, s3)
    let mantissa : ℚ :=
      (digits_to_nat (ip ++ fp) : ℚ) / ((10 : ℚ) ^ fp.length)
    let signed : ℚ := if neg then -mantissa else mantissa
    let valued : ℚ := match ex with
      | some e => signed * (10 : ℚ) ^ e
      | none => signed
    some (PyValue.num valued, s4)

mutual

/-- One JSON value starting at the head of the (whitespace-stripped)
input, fuelled to bound recursion; models the grammar Python's
json.loads accepts (without the nonstandard NaN/Infinity extension,
which the program's data never contains). -/
def parse_value (fuel : Nat) (s : List Char) : Option (PyValue × List Char) :=
  match fuel with
  | 0 => none
  | fuel + 1 =>
    match skip_ws s with
    | [] => none
    | c :: rest =>
      if c = '"' then
        match parse_string_core [] rest with
        | some (str, r) => some (PyValue.str str, r)
        | none => none
      else if c = '[' then
        match skip_ws rest with
        | ']' :: r => some (PyValue.list [], r)
        | _ => match parse_elements fuel rest [] with
          | some (vs, r) => some (PyValue.list vs, r)
          | none => none
      else if c = '\x7b' then
        match skip_ws rest with
        | '\x7d' :: r => some (PyValue.dict [], r)
        | _ => match parse_members fuel rest [] with
          | some (kvs, r) => some (PyValue.dict kvs, r)
          | none => none
      else if c = 't' then
        match rest with
        | 'r' :: 'u' :: 'e' :: r => some (PyValue.bool true, r)
        | _ => none
      else if c = 'f' then
        match rest with
        | 'a' :: 'l' :: 's' :: 'e' :: r => some (PyValue.bool false, r)
        | _ => none
      else if c = 'n' then
        match rest with
        | 'u' :: 'l' :: 'l' :: r => some (PyValue.null, r)
        | _ => none
      else if c = '-' ∨ c.isDigit then parse_number (c :: rest)
      else none

/-- The elements of a JSON array, after the opening bracket (the
empty-array case is handled by the caller). -/
def parse_elements (fuel : Nat) (s : List Char) (acc : List PyValue) :
    Option (List PyValue × List Char) :=
  match fuel with
  | 0 => none
  | fuel + 1 =>
    match parse_value fuel s with
    | none => none
    | some (v, rest) =>
      match skip_ws rest with
      | ',' :: r => parse_elements fuel r (v :: acc)
      | ']' :: r => some ((v :: acc).reverse, r)
      | _ => none

/-- The members of a JSON object, after the opening brace (the
empty-object case is handled by the caller). -/
def parse_members (fuel : Nat) (s : List Char) (acc : List (String × PyValue)) :
    Option (List (String × PyValue) × List Char) :=
  match fuel with
  | 0 => none
  | fuel + 1 =>
    match skip_ws s with
    | '"' :: r =>
      match parse_string_core [] r with
      | none => none
      | some (k, r2) =>
        match skip_ws r2 with
        | ':' :: r3 =>
          match parse_value fuel r3 with
          | none => none
          | some (v, r4) =>
            match skip_ws r4 with
            | ',' :: r5 => parse_members fuel r5 ((k, v) :: acc)
            | '\x7d' :: r5 => some (((k, v) :: acc).reverse, r5)
            | _ => none
        | _ => none
    | _ => none

end

/-- Model of Python's json.loads on a character list: one complete JSON
value, optionally surrounded by whitespace; anything else (including
trailing garbage) is a decode error, modelled as none. -/
def json_loads_chars (cs : List Char) : Option PyValue :=
  match parse_value (2 * cs.length + 2) cs with
  | some (v, rest) => if skip_ws rest = [] then some v else none
  | none => none

/-- Model of Python's json.loads. -/
def json_loads (s : String) : Option PyValue :=
  json_loads_chars s.data

/-!
The Response Extractor: parse_ai_response (src/streamlit_app.py lines
73-85).  Python's str.find / str.rfind return -1 when the character is
absent; that is modelled by Option.  The slice response_text[start:end+1]
is modelled by drop/take, which agrees with Python slicing for the
in-range indices produced here.
-/

/-- Index of the first occurrence of a character (Python str.find). -/
def find_idx (c : Char) : List Char → Option Nat
  | [] => none
  | x :: xs => if x = c then some 0 else (find_idx c xs).map (· + 1)

/-- Index of the last occurrence of a character (Python str.rfind). -/
def rfind_idx (c : Char) : List Char → Option Nat
  | [] => none
  | x :: xs =>
    match rfind_idx c xs with
    | some i => some (i + 1)
    | none => if x = c then some 0 else none

/-- parse_ai_response on a character list: take the substring from the
first opening bracket through the last closing bracket and run json.loads
on it; if either bracket is missing, or the last closing bracket is not
strictly after the first opening one, or the substring fails to decode,
the result is None (the JSONDecodeError is caught and mapped to None). -/
def parse_ai_response_chars (cs : List Char) : Option PyValue :=
  match find_idx '[' cs, rfind_idx ']' cs with
  | some s, some e =>
      if e > s then json_loads_chars ((cs.drop s).take (e + 1 - s))
      else none
  | _, _ => none

/-- Extracts the JSON list from the AI's response
(parse_ai_response, lines 73-85). -/
def parse_ai_response (response_text : String) : Option PyValue :=
  parse_ai_response_chars response_text.data

/-!
The validation step of generate_questions_from_ai (lines 151-157).  The
network call, prompt and token handling are external collaborators; the
embedding covers the deterministic tail of the function: what it does
with the generated text.  Python's membership test
"secondary_question" in questions[0] depends on the runtime type of
questions[0]: key lookup for a dict, substring test for a str,
element-equality for a list, and an uncaught TypeError for None, bool
and numbers.
-/

/-- Whether the character-list needle occurs as a contiguous substring of
the haystack (Python's "needle in str"). -/
def substr_in (needle hay : List Char) : Bool :=
  (List.range (hay.length + 1)).any fun i => needle.isPrefixOf (hay.drop i)

/-- Python's membership test key in v, for a string key: ok with the
Boolean outcome for dicts (key membership), strings (substring test) and
lists (element equality; a non-string element never equals a string);
error for the remaining types, where Python raises TypeError. -/
def py_contains (key : String) : PyValue → Except Unit Bool
  | .dict kvs => .ok (kvs.any fun kv => kv.1 = key)
  | .str s => .ok (substr_in key.data s.data)
  | .list xs => .ok (xs.any fun x => match x with
      | .str s => s = key
      | _ => false)
  | _ => .error ()

/-- Outcome of the question-generation validation: invalid_format models
the single error path of lines 155-157 (it covers both a failed
extraction and a failed sentinel check, and carries the raw generated
text that line 156 displays); type_error models the uncaught TypeError
that "secondary_question" in questions[0] raises when the first element
is null, a boolean or a number. -/
inductive GenError where
  | invalid_format : String → GenError
  | type_error : GenError

/-- The deterministic tail of generate_questions_from_ai (lines 151-157):
parse the generated text, then accept the parsed value when it is a
non-empty list whose first element passes the membership test for
"secondary_question", returning its first 10 elements; otherwise report
the invalid-format error carrying the raw text (or propagate the
TypeError of the membership test). -/
def generate_questions_from_ai (generated_text : String) :
    Except GenError (List PyValue) :=
  match parse_ai_response generated_text with
  | some (PyValue.list (q :: rest)) =>
      match py_contains "secondary_question" q with
      | .ok true => .ok ((q :: rest).take 10)
      | .ok false => .error (.invalid_format generated_text)
      | .error _ => .error .type_error
  | _ => .error (.invalid_format generated_text)

/-!
The Quiz Session State Machine (run_quiz_view, lines 247-309).  The
machine reads one question dict at a time through its eight keys; a
question block is modelled by a record with those fields.  One user
event is processed per transition: a primary selection (lines 247-263),
a secondary selection (lines 266-286), or the continue click of the
feedback stage (lines 301-309).  The stage strings of the source,
including its name next_q for the feedback/advance stage, are kept.
-/

/-- One question block, field for field the dict keys the state machine
reads (q_data['question'], q_data['options'], ...). -/
structure Question where
  question : String
  options : List String
  answer : String
  explanation : String
  secondary_question : String
  secondary_options : List String
  secondary_answer : String
  secondary_explanation : String

/-- The stage strings of st.session_state.stage: 'primary', 'secondary'
and 'next_q' (the feedback/advance stage of the spec). -/
inductive Stage where
  | primary : Stage
  | secondary : Stage
  | next_q : Stage
deriving DecidableEq

/-- The per-session quiz variables of st.session_state (score as an
exact rational, see the header note). -/
structure QuizState where
  q_index : Nat
  score : ℚ
  stage : Stage
  last_primary_correct : Option Bool
  last_secondary_correct : Option Bool
  current_explanation : String
  current_secondary_explanation : String
  quiz_finished : Bool
deriving DecidableEq

/-- The quiz variables set by initialize_quiz_state (lines 166-176). -/
def initialize_quiz_state : QuizState :=
  { q_index := 0
    score := 0
    stage := Stage.primary
    last_primary_correct := none
    last_secondary_correct := none
    current_explanation := ""
    current_secondary_explanation := ""
    quiz_finished := false }

/-- The primary-stage submission handler (lines 252-261): on the correct
option add 1.0 and go to the feedback stage, otherwise go to the
secondary stage; in both cases record the result flag and cache the
explanation. -/
def submit_primary (q : Question) (user_answer : String) (s : QuizState) :
    QuizState :=
  if user_answer = q.answer then
    { s with score := s.score + 1
             last_primary_correct := some true
             stage := Stage.next_q
             current_explanation := q.explanation }
  else
    { s with last_primary_correct := some false
             stage := Stage.secondary
             current_explanation := q.explanation }

/-- The secondary-stage submission handler (lines 276-284): on the
correct option add 0.5; either way record the result flag, cache the
secondary explanation and go to the feedback stage. -/
def submit_secondary (q : Question) (user_answer_sec : String)
    (s : QuizState) : QuizState :=
  let s1 :=
    if user_answer_sec = q.secondary_answer then
      { s with score := s.score + 1 / 2, last_secondary_correct := some true }
    else
      { s with last_secondary_correct := some false }
  { s1 with current_secondary_explanation := q.secondary_explanation
            stage := Stage.next_q }

/-- The Next Question click handler (lines 301-308), n being
len(q_list): below the last index move to the next question and reset
the result flags, at the last index finish the quiz. -/
def next_question (n : Nat) (s : QuizState) : QuizState :=
  if s.q_index < n - 1 then
    { s with q_index := s.q_index + 1
             stage := Stage.primary
             last_primary_correct := none
             last_secondary_correct := none }
  else
    { s with quiz_finished := true }

/-- The three user events a render cycle can deliver. -/
inductive Event where
  | select_primary : String → Event
  | select_secondary : String → Event
  | advance : Event
deriving DecidableEq

/-- One transition of the state machine: the handlers above, guarded as
in the source — the quiz is not finished (line 228), the stage matches,
the current question exists (line 240), and the selected option is one
of the options the form offers (lines 250 and 274). -/
inductive Step (qs : List Question) : QuizState → Event → QuizState → Prop where
  | primary (s : QuizState) (q : Question) (a : String)
      (hnf : s.quiz_finished = false) (hst : s.stage = Stage.primary)
      (hq : qs.get? s.q_index = some q) (ha : a ∈ q.options) :
      Step qs s (Event.select_primary a) (submit_primary q a s)
  | secondary (s : QuizState) (q : Question) (b : String)
      (hnf : s.quiz_finished = false) (hst : s.stage = Stage.secondary)
      (hq : qs.get? s.q_index = some q) (hb : b ∈ q.secondary_options) :
      Step qs s (Event.select_secondary b) (submit_secondary q b s)
  | advance (s : QuizState)
      (hnf : s.quiz_finished = false) (hst : s.stage = Stage.next_q) :
      Step qs s Event.advance (next_question qs.length s)

/-- States reachable from a fresh quiz on question list qs. -/
inductive Reachable (qs : List Question) : QuizState → Prop where
  | init : Reachable qs initialize_quiz_state
  | step {s : QuizState} {e : Event} {s' : QuizState} :
      Reachable qs s → Step qs s e s' → Reachable qs s'

/-- The reward computation of the results view (lines 316-321). -/
def minutes_won (score : ℚ) : Nat :=
  if score = 10 then 30
  else if 8 ≤ score then 20
  else 0

/-- Modelled from the spec: the Reward Resolver as §4.3 words it — 10.0
maps to 30, the half-open band from 8.0 below 10.0 maps to 20, anything
else to 0.  Stated to be compared with minutes_won. -/
def reward_spec (score : ℚ) : Nat :=
  if score = 10 then 30
  else if 8 ≤ score ∧ score < 10 then 20
  else 0

/-!
Session start and its error handling (lines 205-225).  The st.session_state
keys are modelled by a record with an Option per key (none = key absent);
the Start handler first runs initialize_quiz_state, then fetches the
transcript and calls the generation pipeline, resetting quiz_started and
stopping on either failure; questions is only ever assigned on success
(line 224).
-/

/-- The st.session_state keys the program uses; none models an absent
key. -/
structure AppState where
  quiz_started : Bool
  quiz_finished : Option Bool
  q_index : Option Nat
  score : Option ℚ
  stage : Option Stage
  last_primary_correct : Option (Option Bool)
  last_secondary_correct : Option (Option Bool)
  current_explanation : Option String
  current_secondary_explanation : Option String
  questions : Option (List PyValue)

/-- The session before any start attempt: only quiz_started is present,
set to false by lines 206-207. -/
def pre_start : AppState :=
  { quiz_started := false
    quiz_finished := none
    q_index := none
    score := none
    stage := none
    last_primary_correct := none
    last_secondary_correct := none
    current_explanation := none
    current_secondary_explanation := none
    questions := none }

/-- initialize_quiz_state (lines 166-176) acting on the session keys;
questions is not among the keys it assigns. -/
def initialize_quiz_state_app (a : AppState) : AppState :=
  { a with quiz_started := true
           quiz_finished := some false
           q_index := some 0
           score := some 0
           stage := some Stage.primary
           last_primary_correct := some none
           last_secondary_correct := some none
           current_explanation := some ""
           current_secondary_explanation := some "" }

/-- The Start Quiz click handler (lines 209-225), parameterised by the
outcome of the transcript fetch and by the generation pipeline run on
the fetched transcript: on either failure st.session_state.quiz_started
is reset to False and the script stops (lines 215-216 and 221-222); only
on success are the questions stored (line 224). -/
def start_quiz (fetch : Except String String)
    (gen : String → Except GenError (List PyValue)) (a : AppState) :
    AppState :=
  let a1 := initialize_quiz_state_app a
  match fetch with
  | .error _ => { a1 with quiz_started := false }
  | .ok transcript =>
    match gen transcript with
    | .error _ => { a1 with quiz_started := false }
    | .ok qs => { a1 with questions := some qs }

/-- The gate of the quiz view (line 228):
quiz_started and not get("quiz_finished", False). -/
def quiz_view_active (a : AppState) : Bool :=
  a.quiz_started && !(a.quiz_finished.getD false)

/-- The gate of the results view (line 312): get("quiz_finished", False). -/
def results_view_active (a : AppState) : Bool :=
  a.quiz_finished.getD false

/-!
The generation pipeline's acceptance behaviour (claims about
generate_questions_from_ai).  dict_get and the two checkers below state,
in the spec's words, the per-question constraint the claims quantify
over; the pipeline itself never evaluates them.
-/

/-- Python dict lookup d[k] on a parsed JSON object (with the
last-duplicate-wins rule of Python dict construction). -/
def dict_get (q : PyValue) (key : String) : Option PyValue :=
  match q with
  | PyValue.dict kvs => (kvs.reverse.find? fun kv => kv.1 = key).map fun kv => kv.2
  | _ => none

/-- Modelled from the spec: the constraint answer ∈ options of §3 — the
string at key "answer" occurs, by exact string match, among the strings
at key "options".  Stated for comparison with what the pipeline actually
checks. -/
def answer_in_options (q : PyValue) : Bool :=
  match dict_get q "answer", dict_get q "options" with
  | some (PyValue.str a), some (PyValue.list opts) =>
      opts.any fun v => match v with
        | PyValue.str s => s = a
        | _ => false
  | _, _ => false

/-- Modelled from the spec: the constraint
secondaryAnswer ∈ secondaryOptions of §3, analogously. -/
def secondary_answer_in_options (q : PyValue) : Bool :=
  match dict_get q "secondary_answer", dict_get q "secondary_options" with
  | some (PyValue.str a), some (PyValue.list opts) =>
      opts.any fun v => match v with
        | PyValue.str s => s = a
        | _ => false
  | _, _ => false

/-- A raw model response whose single question block carries the
sentinel key but whose answer, the string z, is not among its options. -/
def bad_raw : String :=
  "[\x7b\"question\": \"q\", \"options\": [\"a\", \"b\", \"c\", \"d\"], \"answer\": \"z\", \"explanation\": \"e\", \"secondary_question\": \"s\", \"secondary_options\": [\"True\", \"False\"], \"secondary_answer\": \"True\", \"secondary_explanation\": \"se\"\x7d]"

/-- The parsed question block of bad_raw. -/
def bad_q : PyValue :=
  PyValue.dict
    [("question", PyValue.str "q"),
     ("options", PyValue.list
        [PyValue.str "a", PyValue.str "b", PyValue.str "c", PyValue.str "d"]),
     ("answer", PyValue.str "z"),
     ("explanation", PyValue.str "e"),
     ("secondary_question", PyValue.str "s"),
     ("secondary_options", PyValue.list [PyValue.str "True", PyValue.str "False"]),
     ("secondary_answer", PyValue.str "True"),
     ("secondary_explanation", PyValue.str "se")]

set_option maxRecDepth 4000

/-!
The score invariant of the state machine.  A question is resolved once
its feedback stage is reached: exactly then its credit (1.0 after a
correct primary, 0.5 or 0.0 after the secondary) has been added.
-/

/-- How many questions have had their credit assigned in state s. -/
def resolved_count (s : QuizState) : Nat :=
  match s.stage with
  | Stage.primary => s.q_index
  | Stage.secondary => s.q_index
  | Stage.next_q => s.q_index + 1

/-- The inductive invariant of the machine: the index is in range and
the score is the sum of one credit from range 0, 0.5, 1 per resolved
question. -/
def quiz_inv (qs : List Question) (s : QuizState) : Prop :=
  s.q_index < qs.length ∧
  ∃ credits : List ℚ,
    (∀ c ∈ credits, c = 1 ∨ c = 1 / 2 ∨ c = 0) ∧
    s.score = credits.sum ∧
    credits.length = resolved_count s

/-- A question for the concrete runs of the witnesses below. -/
def q0 : Question :=
  { question := "q"
    options := ["a", "b", "c", "d"]
    answer := "a"
    explanation := "e"
    secondary_question := "s"
    secondary_options := ["True", "False"]
    secondary_answer := "True"
    secondary_explanation := "se" }

/-!
Helper lemmas about the bracket search of parse_ai_response.
-/

theorem find_idx_none (c : Char) (l : List Char) (h : c ∉ l) :
    find_idx c l = none := by
  induction l with
  | nil => rfl
  | cons x xs ih =>
    simp only [List.mem_cons, not_or] at h
    have hx : ¬ (x = c) := fun hx => h.1 hx.symm
    simp only [find_idx, if_neg hx, ih h.2, Option.map_none']

theorem rfind_idx_none (c : Char) (l : List Char) (h : c ∉ l) :
    rfind_idx c l = none := by
  induction l with
  | nil => rfl
  | cons x xs ih =>
    simp only [List.mem_cons, not_or] at h
    have hx : ¬ (x = c) := fun hx => h.1 hx.symm
    simp only [rfind_idx, ih h.2, if_neg hx]

theorem find_idx_append (c : Char) (l1 l2 : List Char) (i : Nat)
    (h : c ∉ l1) (h2 : find_idx c l2 = some i) :
    find_idx c (l1 ++ l2) = some (l1.length + i) := by
  induction l1 with
  | nil => simpa using h2
  | cons x xs ih =>
    simp only [List.mem_cons, not_or] at h
    have hx : ¬ (x = c) := fun hx => h.1 hx.symm
    have ih2 := ih h.2
    simp only [List.cons_append, find_idx, List.append_eq, if_neg hx, ih2,
      Option.map_some', List.length_cons]
    congr 1
    omega

theorem rfind_idx_append_some (c : Char) (l1 l2 : List Char) (i : Nat)
    (h2 : rfind_idx c l2 = some i) :
    rfind_idx c (l1 ++ l2) = some (l1.length + i) := by
  induction l1 with
  | nil => simpa using h2
  | cons x xs ih =>
    simp only [List.cons_append, rfind_idx, List.append_eq, ih,
      List.length_cons]
    congr 1
    omega

theorem rfind_idx_append_none (c : Char) (l1 l2 : List Char) (h : c ∉ l2) :
    rfind_idx c (l1 ++ l2) = rfind_idx c l1 := by
  induction l1 with
  | nil => simpa using rfind_idx_none c l2 h
  | cons x xs ih =>
    simp only [List.cons_append, rfind_idx, List.append_eq, ih]

theorem getLast_decomp (l : List Char) (c : Char) (h : l.getLast? = some c) :
    ∃ init, l = init ++ [c] := by
  induction l with
  | nil => simp at h
  | cons x xs ih =>
    cases xs with
    | nil =>
      simp only [List.getLast?_singleton, Option.some.injEq] at h
      exact ⟨[], by simp [h]⟩
    | cons y ys =>
      rw [List.getLast?_cons_cons] at h
      obtain ⟨init, hinit⟩ := ih h
      exact ⟨x :: init, by simp [hinit]⟩

/-- C7: the Extractor takes the substring from the first opening bracket
through the last closing bracket; on an input made of bracket-free noise
around a decodable JSON array it returns exactly the parse of that
embedded array, and when either bracket is missing, or the candidate
substring fails to decode, it fails (None, the MalformedOutput case). -/
theorem parse_ai_response_extraction :
    (∀ (t : String) (noise1 arr noise2 : List Char) (v : PyValue),
        t.data = noise1 ++ (arr ++ noise2) →
        '[' ∉ noise1 → ']' ∉ noise2 →
        arr.head? = some '[' → arr.getLast? = some ']' →
        json_loads_chars arr = some v →
        parse_ai_response t = some v) ∧
    (∀ t : String, '[' ∉ t.data → parse_ai_response t = none) ∧
    (∀ t : String, ']' ∉ t.data → parse_ai_response t = none) ∧
    (∀ (t : String) (i j : Nat),
        find_idx '[' t.data = some i → rfind_idx ']' t.data = some j →
        j > i →
        json_loads_chars ((t.data.drop i).take (j + 1 - i)) = none →
        parse_ai_response t = none) := by
  refine ⟨?_, ?_, ?_, ?_⟩
  · intro t noise1 arr noise2 v ht h1 h2 hhead hlast hparse
    obtain ⟨init, hinit⟩ := getLast_decomp arr ']' hlast
    have hinit_ne : init ≠ [] := by
      intro h0
      rw [h0, List.nil_append] at hinit
      rw [hinit] at hhead
      simp only [List.head?_cons, Option.some.injEq] at hhead
      exact absurd hhead (by decide)
    have hlen_pos : 0 < init.length := List.length_pos.mpr hinit_ne
    have harrlen : arr.length = init.length + 1 := by
      rw [hinit]; simp
    have hfind_arr : find_idx '[' (arr ++ noise2) = some 0 := by
      cases harr : arr with
      | nil => rw [harr] at hhead; simp at hhead
      | cons a tl =>
        have ha : a = '[' := by
          rw [harr] at hhead
          simpa using hhead
        simp [find_idx, ha]
    have hfind : find_idx '[' t.data = some noise1.length := by
      rw [ht]
      simpa using find_idx_append '[' noise1 (arr ++ noise2) 0 h1 hfind_arr
    have hrfind : rfind_idx ']' t.data = some (noise1.length + init.length) := by
      rw [ht, ← List.append_assoc]
      rw [rfind_idx_append_none ']' (noise1 ++ arr) noise2 h2]
      rw [hinit, ← List.append_assoc]
      have hsingle : rfind_idx ']' [']'] = some 0 := rfl
      have := rfind_idx_append_some ']' (noise1 ++ init) [']'] 0 hsingle
      simpa [List.length_append] using this
    unfold parse_ai_response parse_ai_response_chars
    rw [hfind, hrfind]
    have hgt : noise1.length + init.length > noise1.length := by omega
    show (if noise1.length + init.length > noise1.length then
        json_loads_chars
          (List.take (noise1.length + init.length + 1 - noise1.length)
            (List.drop noise1.length t.data))
      else none) = some v
    rw [if_pos hgt]
    have harith : noise1.length + init.length + 1 - noise1.length = arr.length := by
      omega
    rw [harith, ht, List.drop_left, List.take_left]
    exact hparse
  · intro t h
    unfold parse_ai_response parse_ai_response_chars
    rw [find_idx_none '[' t.data h]
  · intro t h
    unfold parse_ai_response parse_ai_response_chars
    rw [rfind_idx_none ']' t.data h]
    cases find_idx '[' t.data <;> rfl
  · intro t i j hi hj hgt hfail
    unfold parse_ai_response parse_ai_response_chars
    rw [hi, hj]
    simpa [if_pos hgt] using hfail

/-- Witness for the extraction theorem: noise around an embedded array
of two strings is stripped and exactly the embedded array is
recovered. -/
theorem parse_ai_response_extraction_witness :
    parse_ai_response "noise [\"a\", \"b\"] trailing" =
      some (PyValue.list [PyValue.str "a", PyValue.str "b"]) :=
  parse_ai_response_extraction.1 "noise [\"a\", \"b\"] trailing"
    "noise ".data "[\"a\", \"b\"]".data " trailing".data
    (PyValue.list [PyValue.str "a", PyValue.str "b"])
    rfl (by decide) (by decide) rfl rfl rfl

/-- C10: parse_ai_response is total — every input yields either a parsed
value or None — and it rejects an input lacking an opening bracket,
lacking a closing bracket, or whose last closing bracket is not strictly
after its first opening bracket. -/
theorem parse_ai_response_rejections :
    (∀ t : String, parse_ai_response t = none ∨ ∃ v, parse_ai_response t = some v) ∧
    (∀ t : String, '[' ∉ t.data ∨ ']' ∉ t.data → parse_ai_response t = none) ∧
    (∀ (t : String) (i j : Nat),
        find_idx '[' t.data = some i → rfind_idx ']' t.data = some j →
        ¬ j > i → parse_ai_response t = none) := by
  refine ⟨?_, ?_, ?_⟩
  · intro t
    cases h : parse_ai_response t with
    | none => exact Or.inl rfl
    | some v => exact Or.inr ⟨v, rfl⟩
  · intro t h
    rcases h with h | h
    · unfold parse_ai_response parse_ai_response_chars
      rw [find_idx_none '[' t.data h]
    · unfold parse_ai_response parse_ai_response_chars
      rw [rfind_idx_none ']' t.data h]
      cases find_idx '[' t.data <;> rfl
  · intro t i j hi hj hle
    unfold parse_ai_response parse_ai_response_chars
    rw [hi, hj]
    show (if j > i then
        json_loads_chars (List.take (j + 1 - i) (List.drop i t.data))
      else none) = none
    exact if_neg hle

/-- Witness for the rejection theorem: a closing bracket before the only
opening bracket is rejected, not parsed. -/
theorem parse_ai_response_rejections_witness :
    parse_ai_response "] x [" = none :=
  parse_ai_response_rejections.2.2 "] x [" 4 0 rfl rfl (by decide)

/-- C1 counterexample: the pipeline accepts this batch although its only
question violates answer ∈ options (the answer z is not an option);
acceptance never evaluates the per-question constraints. -/
theorem pipeline_accepts_bad_answer :
    generate_questions_from_ai bad_raw = Except.ok [bad_q] ∧
    answer_in_options bad_q = false ∧
    secondary_answer_in_options bad_q = true :=
  ⟨rfl, rfl, rfl⟩

/-- Inversion of a successful pipeline run: the parsed value was a
non-empty list, its first element passed the sentinel membership test,
and the returned batch is the 10-element prefix of the whole parsed
list. -/
theorem gen_ok_inversion (text : String) (l : List PyValue)
    (h : generate_questions_from_ai text = Except.ok l) :
    ∃ (q : PyValue) (rest : List PyValue),
      parse_ai_response text = some (PyValue.list (q :: rest)) ∧
      py_contains "secondary_question" q = Except.ok true ∧
      l = (q :: rest).take 10 := by
  unfold generate_questions_from_ai at h
  cases hp : parse_ai_response text with
  | none =>
    rw [hp] at h
    exact Except.noConfusion h
  | some v =>
    rw [hp] at h
    cases v with
    | null => exact Except.noConfusion h
    | bool b => exact Except.noConfusion h
    | num n => exact Except.noConfusion h
    | str s => exact Except.noConfusion h
    | dict kvs => exact Except.noConfusion h
    | list xs =>
      cases xs with
      | nil => exact Except.noConfusion h
      | cons q rest =>
        have h2 : (match py_contains "secondary_question" q with
            | Except.ok true => Except.ok ((q :: rest).take 10)
            | Except.ok false =>
                (Except.error (GenError.invalid_format text) :
                  Except GenError (List PyValue))
            | Except.error _ => Except.error GenError.type_error) =
            Except.ok l := h
        cases hok : py_contains "secondary_question" q with
        | error e =>
          rw [hok] at h2
          exact Except.noConfusion h2
        | ok b =>
          rw [hok] at h2
          cases b with
          | false => exact Except.noConfusion h2
          | true => exact ⟨q, rest, rfl, hok, (Except.ok.inj h2).symm⟩

/-- The pipeline's result when the parsed value is a non-empty list
whose first element passes the sentinel membership test. -/
theorem gen_of_sentinel_true (text : String) (q : PyValue)
    (rest : List PyValue)
    (hp : parse_ai_response text = some (PyValue.list (q :: rest)))
    (hok : py_contains "secondary_question" q = Except.ok true) :
    generate_questions_from_ai text = Except.ok ((q :: rest).take 10) := by
  unfold generate_questions_from_ai
  rw [hp]
  show (match py_contains "secondary_question" q with
      | Except.ok true => Except.ok ((q :: rest).take 10)
      | Except.ok false =>
          (Except.error (GenError.invalid_format text) :
            Except GenError (List PyValue))
      | Except.error _ => Except.error GenError.type_error) = _
  rw [hok]

/-- The pipeline's result when the sentinel membership test returns
false. -/
theorem gen_of_sentinel_false (text : String) (q : PyValue)
    (rest : List PyValue)
    (hp : parse_ai_response text = some (PyValue.list (q :: rest)))
    (hok : py_contains "secondary_question" q = Except.ok false) :
    generate_questions_from_ai text =
      Except.error (GenError.invalid_format text) := by
  unfold generate_questions_from_ai
  rw [hp]
  show (match py_contains "secondary_question" q with
      | Except.ok true => Except.ok ((q :: rest).take 10)
      | Except.ok false =>
          (Except.error (GenError.invalid_format text) :
            Except GenError (List PyValue))
      | Except.error _ => Except.error GenError.type_error) = _
  rw [hok]

/-- The pipeline's result when the sentinel membership test raises
TypeError. -/
theorem gen_of_sentinel_type_error (text : String) (q : PyValue)
    (rest : List PyValue)
    (hp : parse_ai_response text = some (PyValue.list (q :: rest)))
    (hok : py_contains "secondary_question" q = Except.error ()) :
    generate_questions_from_ai text = Except.error GenError.type_error := by
  unfold generate_questions_from_ai
  rw [hp]
  show (match py_contains "secondary_question" q with
      | Except.ok true => Except.ok ((q :: rest).take 10)
      | Except.ok false =>
          (Except.error (GenError.invalid_format text) :
            Except GenError (List PyValue))
      | Except.error _ => Except.error GenError.type_error) = _
  rw [hok]

/-- The pipeline's result when extraction fails. -/
theorem gen_of_parse_none (text : String)
    (hp : parse_ai_response text = none) :
    generate_questions_from_ai text =
      Except.error (GenError.invalid_format text) := by
  unfold generate_questions_from_ai
  rw [hp]

/-- C1 amended: batches are accepted or rejected atomically — an accepted
result is always the 10-element prefix of the whole parsed array, never a
partial filtering — and acceptance is decided solely by the sentinel test
on the first element, not by the per-question answer constraints. -/
theorem pipeline_atomic_whole_batch :
    (∀ (text : String) (l : List PyValue),
        generate_questions_from_ai text = Except.ok l →
        ∃ (q : PyValue) (rest : List PyValue),
          parse_ai_response text = some (PyValue.list (q :: rest)) ∧
          py_contains "secondary_question" q = Except.ok true ∧
          l = (q :: rest).take 10) ∧
    (∀ (text : String) (q : PyValue) (rest : List PyValue),
        parse_ai_response text = some (PyValue.list (q :: rest)) →
        py_contains "secondary_question" q = Except.ok true →
        generate_questions_from_ai text = Except.ok ((q :: rest).take 10)) :=
  ⟨gen_ok_inversion, gen_of_sentinel_true⟩

/-- Witness for the atomicity theorem: a one-block batch carrying the
sentinel is returned whole. -/
theorem pipeline_atomic_whole_batch_witness :
    generate_questions_from_ai "[\x7b\"secondary_question\": \"s\"\x7d]" =
      Except.ok [PyValue.dict [("secondary_question", PyValue.str "s")]] :=
  pipeline_atomic_whole_batch.2 "[\x7b\"secondary_question\": \"s\"\x7d]"
    (PyValue.dict [("secondary_question", PyValue.str "s")]) [] rfl rfl

/-- C8 counterexample: on the parsed batch [5] the sentinel test raises
an uncaught TypeError — the pipeline does not produce the
SchemaMismatch outcome (the raw-text-carrying error of lines 155-157)
the claim promises for every sentinel failure. -/
theorem validator_type_error_on_number :
    generate_questions_from_ai "[5]" = Except.error GenError.type_error ∧
    (Except.error GenError.type_error :
        Except GenError (List PyValue)) ≠
      Except.error (GenError.invalid_format "[5]") :=
  ⟨rfl, fun h => GenError.noConfusion (Except.error.inj h)⟩

/-- C8 amended: the Validator accepts exactly the non-empty parsed lists
whose first element passes the membership test for the sentinel key; a
failed extraction or a sentinel test returning false yields the
raw-text-carrying error of lines 155-157; a first element on which the
membership test is undefined (null, boolean or number) raises TypeError
instead; on success the first 10 elements are returned, a shorter batch
being returned whole. -/
theorem validator_outcomes :
    (∀ text : String, parse_ai_response text = none →
        generate_questions_from_ai text =
          Except.error (GenError.invalid_format text)) ∧
    (∀ (text : String) (q : PyValue) (rest : List PyValue),
        parse_ai_response text = some (PyValue.list (q :: rest)) →
        py_contains "secondary_question" q = Except.ok false →
        generate_questions_from_ai text =
          Except.error (GenError.invalid_format text)) ∧
    (∀ (text : String) (q : PyValue) (rest : List PyValue),
        parse_ai_response text = some (PyValue.list (q :: rest)) →
        py_contains "secondary_question" q = Except.error () →
        generate_questions_from_ai text = Except.error GenError.type_error) ∧
    (∀ (text : String) (q : PyValue) (rest : List PyValue),
        parse_ai_response text = some (PyValue.list (q :: rest)) →
        py_contains "secondary_question" q = Except.ok true →
        (q :: rest).length ≤ 10 →
        generate_questions_from_ai text = Except.ok (q :: rest)) ∧
    (∀ (text : String) (l : List PyValue),
        generate_questions_from_ai text = Except.ok l → l.length ≤ 10) := by
  refine ⟨gen_of_parse_none, gen_of_sentinel_false, gen_of_sentinel_type_error, ?_, ?_⟩
  · intro text q rest hp hok hlen
    have h := gen_of_sentinel_true text q rest hp hok
    rwa [List.take_of_length_le hlen] at h
  · intro text l h
    obtain ⟨q, rest, hp, hok, hl⟩ := gen_ok_inversion text l h
    rw [hl]
    simp [List.length_take]

/-- Witness for the validator theorem: a batch whose first element lacks
the sentinel is rejected with the raw-text-carrying error. -/
theorem validator_outcomes_witness :
    generate_questions_from_ai "[\"nope\"]" =
      Except.error (GenError.invalid_format "[\"nope\"]") :=
  validator_outcomes.2.1 "[\"nope\"]" (PyValue.str "nope") [] rfl rfl

theorem resolved_count_primary (s : QuizState)
    (h : s.stage = Stage.primary) : resolved_count s = s.q_index := by
  unfold resolved_count
  rw [h]

theorem resolved_count_secondary (s : QuizState)
    (h : s.stage = Stage.secondary) : resolved_count s = s.q_index := by
  unfold resolved_count
  rw [h]

theorem resolved_count_next_q (s : QuizState)
    (h : s.stage = Stage.next_q) : resolved_count s = s.q_index + 1 := by
  unfold resolved_count
  rw [h]

/-- Every reachable state of a non-empty quiz satisfies the
invariant. -/
theorem reachable_inv (qs : List Question) (s : QuizState) (hqs : qs ≠ [])
    (hr : Reachable qs s) : quiz_inv qs s := by
  induction hr with
  | init =>
    refine ⟨List.length_pos.mpr hqs, [], ?_, rfl, rfl⟩
    intro c hc
    simp at hc
  | @step s0 e0 s1 hr hstep ih =>
    obtain ⟨hidx, credits, hc, hsum, hlen⟩ := ih
    cases hstep with
    | primary q a hnf hst hq ha =>
      by_cases hans : a = q.answer
      · refine ⟨?_, credits ++ [1], ?_, ?_, ?_⟩
        · simpa [submit_primary, hans] using hidx
        · intro c hcm
          rcases List.mem_append.mp hcm with hcm | hcm
          · exact hc c hcm
          · rw [List.mem_singleton] at hcm
            exact Or.inl hcm
        · simp [submit_primary, hans, List.sum_append, hsum]
        · simp [submit_primary, hans, resolved_count]
          rw [hlen, resolved_count_primary _ hst]
      · refine ⟨?_, credits, hc, ?_, ?_⟩
        · simpa [submit_primary, hans] using hidx
        · simp [submit_primary, hans, hsum]
        · simp [submit_primary, hans, resolved_count]
          rw [hlen, resolved_count_primary _ hst]
    | secondary q b hnf hst hq hb =>
      by_cases hans : b = q.secondary_answer
      · refine ⟨?_, credits ++ [1 / 2], ?_, ?_, ?_⟩
        · simpa [submit_secondary, hans] using hidx
        · intro c hcm
          rcases List.mem_append.mp hcm with hcm | hcm
          · exact hc c hcm
          · rw [List.mem_singleton] at hcm
            exact Or.inr (Or.inl hcm)
        · simp [submit_secondary, hans, List.sum_append, hsum]
        · simp [submit_secondary, hans, resolved_count]
          rw [hlen, resolved_count_secondary _ hst]
      · refine ⟨?_, credits ++ [0], ?_, ?_, ?_⟩
        · simpa [submit_secondary, hans] using hidx
        · intro c hcm
          rcases List.mem_append.mp hcm with hcm | hcm
          · exact hc c hcm
          · rw [List.mem_singleton] at hcm
            exact Or.inr (Or.inr hcm)
        · simp [submit_secondary, hans, List.sum_append, hsum]
        · simp [submit_secondary, hans, resolved_count]
          rw [hlen, resolved_count_secondary _ hst]
    | advance hnf hst =>
      have hpos : 0 < qs.length := List.length_pos.mpr hqs
      by_cases hlt : s0.q_index < qs.length - 1
      · refine ⟨?_, credits, hc, ?_, ?_⟩
        · simp [next_question, hlt]
          omega
        · simp [next_question, hlt, hsum]
        · simp [next_question, hlt, resolved_count]
          rw [hlen, resolved_count_next_q _ hst]
      · refine ⟨?_, credits, hc, ?_, ?_⟩
        · simpa [next_question, hlt] using hidx
        · simp [next_question, hlt, hsum]
        · simp [next_question, hlt, resolved_count]
          rw [hlen, resolved_count_next_q _ hst]
          rw [hst]

/-- A list of credits from range 0, 0.5, 1 sums to a non-negative
half-integer bounded by its length. -/
theorem credits_sum_props (credits : List ℚ)
    (h : ∀ c ∈ credits, c = 1 ∨ c = 1 / 2 ∨ c = 0) :
    (∃ k : ℕ, credits.sum = (k : ℚ) / 2) ∧
    0 ≤ credits.sum ∧ credits.sum ≤ (credits.length : ℚ) := by
  induction credits with
  | nil =>
    refine ⟨⟨0, by simp⟩, by simp, by simp⟩
  | cons c cs ih =>
    obtain ⟨⟨k, hk⟩, hnn, hub⟩ := ih fun x hx => h x (List.mem_cons_of_mem c hx)
    have hc := h c (List.mem_cons_self c cs)
    have hcle : c ≤ 1 := by rcases hc with h1 | h1 | h1 <;> rw [h1] <;> norm_num
    have hcnn : 0 ≤ c := by rcases hc with h1 | h1 | h1 <;> rw [h1] <;> norm_num
    refine ⟨?_, ?_, ?_⟩
    · rcases hc with h1 | h1 | h1
      · exact ⟨k + 2, by rw [List.sum_cons, h1, hk]; push_cast; ring⟩
      · exact ⟨k + 1, by rw [List.sum_cons, h1, hk]; push_cast; ring⟩
      · exact ⟨k, by rw [List.sum_cons, h1, hk]; ring⟩
    · rw [List.sum_cons]
      linarith
    · rw [List.sum_cons, List.length_cons]
      push_cast
      linarith

/-- The number of resolved questions never exceeds the number of
questions. -/
theorem resolved_count_le (qs : List Question) (s : QuizState)
    (h : s.q_index < qs.length) : resolved_count s ≤ qs.length := by
  unfold resolved_count
  cases hst : s.stage <;> dsimp only <;> omega

/-- C5: in every reachable state the score is the sum of the per-question
credits assigned so far, each credit 1, 0.5 or 0; hence the score is a
non-negative multiple of 0.5 and never exceeds the number of
questions. -/
theorem score_invariant (qs : List Question) (s : QuizState)
    (hqs : qs ≠ []) (hr : Reachable qs s) :
    ∃ credits : List ℚ,
      (∀ c ∈ credits, c = 1 ∨ c = 1 / 2 ∨ c = 0) ∧
      s.score = credits.sum ∧
      credits.length ≤ qs.length ∧
      (∃ k : ℕ, s.score = (k : ℚ) / 2) ∧
      0 ≤ s.score ∧ s.score ≤ (qs.length : ℚ) := by
  obtain ⟨hidx, credits, hc, hsum, hlen⟩ := reachable_inv qs s hqs hr
  obtain ⟨⟨k, hk⟩, hnn, hub⟩ := credits_sum_props credits hc
  have hble : credits.length ≤ qs.length := by
    rw [hlen]
    exact resolved_count_le qs s hidx
  refine ⟨credits, hc, hsum, hble, ⟨k, by rw [hsum, hk]⟩, ?_, ?_⟩
  · rw [hsum]
    exact hnn
  · rw [hsum]
    calc credits.sum ≤ (credits.length : ℚ) := hub
    _ ≤ (qs.length : ℚ) := by exact_mod_cast hble

/-- Witness for the score invariant, at the initial state of a
one-question quiz. -/
theorem score_invariant_witness :
    ∃ credits : List ℚ,
      (∀ c ∈ credits, c = 1 ∨ c = 1 / 2 ∨ c = 0) ∧
      initialize_quiz_state.score = credits.sum ∧
      credits.length ≤ [q0].length ∧
      (∃ k : ℕ, initialize_quiz_state.score = (k : ℚ) / 2) ∧
      0 ≤ initialize_quiz_state.score ∧
      initialize_quiz_state.score ≤ ([q0].length : ℚ) :=
  score_invariant [q0] initialize_quiz_state (List.cons_ne_nil q0 [])
    Reachable.init

/-- C2: a primary-stage transition on an offered option adds exactly 1.0
and moves to the feedback stage when the option is the answer; otherwise
it keeps the score, moves to the secondary stage — never to the feedback
stage and never finishing — and in both cases records the flag and
caches the explanation. -/
theorem primary_transition (qs : List Question) (s s' : QuizState)
    (q : Question) (a : String)
    (hstep : Step qs s (Event.select_primary a) s')
    (hq : qs.get? s.q_index = some q) :
    (a = q.answer →
      s'.score = s.score + 1 ∧ s'.last_primary_correct = some true ∧
      s'.current_explanation = q.explanation ∧ s'.stage = Stage.next_q) ∧
    (a ≠ q.answer →
      s'.score = s.score ∧ s'.last_primary_correct = some false ∧
      s'.current_explanation = q.explanation ∧
      s'.stage = Stage.secondary ∧ s'.stage ≠ Stage.next_q ∧
      s'.quiz_finished = false) := by
  cases hstep with
  | primary q2 a hnf hst hq2 ha =>
    have hqq : q2 = q := by
      rw [hq] at hq2
      exact (Option.some.inj hq2).symm
    subst hqq
    constructor
    · intro hans
      refine ⟨?_, ?_, ?_, ?_⟩ <;> simp [submit_primary, hans]
    · intro hans
      refine ⟨?_, ?_, ?_, ?_, ?_, ?_⟩ <;> simp [submit_primary, hans, hnf]

/-- Witness for the primary transition, on the correct option of q0. -/
theorem primary_transition_witness :
    (submit_primary q0 "a" initialize_quiz_state).score =
        initialize_quiz_state.score + 1 ∧
    (submit_primary q0 "a" initialize_quiz_state).last_primary_correct =
        some true ∧
    (submit_primary q0 "a" initialize_quiz_state).current_explanation =
        q0.explanation ∧
    (submit_primary q0 "a" initialize_quiz_state).stage = Stage.next_q :=
  (primary_transition [q0] initialize_quiz_state
    (submit_primary q0 "a" initialize_quiz_state) q0 "a"
    (Step.primary initialize_quiz_state q0 "a" rfl rfl rfl (by decide))
    rfl).1 rfl

/-- C3: a secondary-stage transition on True or False adds exactly 0.5
and sets the flag when the option is the secondary answer, otherwise
keeps the score and clears the flag; in both cases it caches the
secondary explanation and moves to the feedback stage. -/
theorem secondary_transition (qs : List Question) (s s' : QuizState)
    (q : Question) (b : String)
    (hstep : Step qs s (Event.select_secondary b) s')
    (hq : qs.get? s.q_index = some q)
    (hb2 : b = "True" ∨ b = "False") :
    (b = q.secondary_answer →
      s'.score = s.score + 1 / 2 ∧ s'.last_secondary_correct = some true ∧
      s'.current_secondary_explanation = q.secondary_explanation ∧
      s'.stage = Stage.next_q) ∧
    (b ≠ q.secondary_answer →
      s'.score = s.score ∧ s'.last_secondary_correct = some false ∧
      s'.current_secondary_explanation = q.secondary_explanation ∧
      s'.stage = Stage.next_q) := by
  cases hstep with
  | secondary q2 b hnf hst hq2 hb =>
    have hqq : q2 = q := by
      rw [hq] at hq2
      exact (Option.some.inj hq2).symm
    subst hqq
    constructor
    · intro hans
      refine ⟨?_, ?_, ?_, ?_⟩ <;> simp [submit_secondary, hans]
    · intro hans
      refine ⟨?_, ?_, ?_, ?_⟩ <;> simp [submit_secondary, hans]

/-- Witness for the secondary transition: after a wrong primary answer
on q0, the correct secondary answer recovers half a point. -/
theorem secondary_transition_witness :
    (submit_secondary q0 "True"
        (submit_primary q0 "b" initialize_quiz_state)).score =
      (submit_primary q0 "b" initialize_quiz_state).score + 1 / 2 ∧
    (submit_secondary q0 "True"
        (submit_primary q0 "b" initialize_quiz_state)).last_secondary_correct =
      some true ∧
    (submit_secondary q0 "True"
        (submit_primary q0 "b"
          initialize_quiz_state)).current_secondary_explanation =
      q0.secondary_explanation ∧
    (submit_secondary q0 "True"
        (submit_primary q0 "b" initialize_quiz_state)).stage = Stage.next_q :=
  (secondary_transition [q0] (submit_primary q0 "b" initialize_quiz_state)
    (submit_secondary q0 "True" (submit_primary q0 "b" initialize_quiz_state))
    q0 "True"
    (Step.secondary (submit_primary q0 "b" initialize_quiz_state) q0 "True"
      rfl rfl rfl (by decide))
    rfl (Or.inl rfl)).1 rfl

/-- C4: a continue event in the feedback stage finishes the quiz exactly
at the last index (leaving index and score unchanged), and otherwise
advances the index by one, returns to the primary stage and resets both
flags; across all transitions, the finished flag is set if and only if
the continue event fired at the last index. -/
theorem advance_transition (qs : List Question) (s : QuizState) (e : Event)
    (s' : QuizState) (hqs : qs ≠ []) (hr : Reachable qs s)
    (hstep : Step qs s e s') :
    (s.stage = Stage.next_q →
      (s.q_index = qs.length - 1 →
        s'.quiz_finished = true ∧ s'.q_index = s.q_index ∧
        s'.score = s.score) ∧
      (s.q_index ≠ qs.length - 1 →
        s'.q_index = s.q_index + 1 ∧ s'.stage = Stage.primary ∧
        s'.last_primary_correct = none ∧ s'.last_secondary_correct = none ∧
        s'.quiz_finished = false)) ∧
    (s'.quiz_finished = true ↔ e = Event.advance ∧ s.q_index = qs.length - 1) := by
  have hidx : s.q_index < qs.length := (reachable_inv qs s hqs hr).1
  have hpos : 0 < qs.length := List.length_pos.mpr hqs
  cases hstep with
  | primary q a hnf hst hq ha =>
    constructor
    · intro hnq
      rw [hst] at hnq
      exact Stage.noConfusion hnq
    · constructor
      · intro hfin
        by_cases hans : a = q.answer <;>
          simp [submit_primary, hans, hnf] at hfin
      · rintro ⟨he, -⟩
        exact Event.noConfusion he
  | secondary q b hnf hst hq hb =>
    constructor
    · intro hnq
      rw [hst] at hnq
      exact Stage.noConfusion hnq
    · constructor
      · intro hfin
        by_cases hans : b = q.secondary_answer <;>
          simp [submit_secondary, hans, hnf] at hfin
      · rintro ⟨he, -⟩
        exact Event.noConfusion he
  | advance hnf hst =>
    constructor
    · rintro -
      constructor
      · intro heq
        have hnlt : ¬ (s.q_index < qs.length - 1) := by omega
        refine ⟨?_, ?_, ?_⟩ <;> simp [next_question, hnlt]
      · intro hne
        have hlt : s.q_index < qs.length - 1 := by omega
        refine ⟨?_, ?_, ?_, ?_, ?_⟩ <;> simp [next_question, hlt, hnf]
    · constructor
      · intro hfin
        refine ⟨rfl, ?_⟩
        by_contra hne
        have hlt : s.q_index < qs.length - 1 := by omega
        simp [next_question, hlt, hnf] at hfin
      · rintro ⟨-, heq⟩
        have hnlt : ¬ (s.q_index < qs.length - 1) := by omega
        simp [next_question, hnlt]

/-- Witness for the continue transition: a one-question quiz finishes on
the continue event after its question is resolved. -/
theorem advance_transition_witness :
    (next_question (List.length [q0])
        (submit_primary q0 "a" initialize_quiz_state)).quiz_finished = true :=
  ((advance_transition [q0] (submit_primary q0 "a" initialize_quiz_state)
      Event.advance
      (next_question (List.length [q0])
        (submit_primary q0 "a" initialize_quiz_state))
      (List.cons_ne_nil q0 [])
      (Reachable.step Reachable.init
        (Step.primary initialize_quiz_state q0 "a" rfl rfl rfl (by decide)))
      (Step.advance (submit_primary q0 "a" initialize_quiz_state) rfl
        rfl)).2).mpr
    ⟨rfl, rfl⟩

/-- Below a score of 10 the source's reward computation agrees with the
spec's band description (above 10 the two would differ, but reachable
final scores never exceed the number of questions). -/
theorem minutes_won_eq_reward_spec (x : ℚ) (hx : x ≤ 10) :
    minutes_won x = reward_spec x := by
  by_cases h1 : x = 10
  · simp [minutes_won, reward_spec, h1]
  · by_cases h2 : 8 ≤ x
    · have h3 : x < 10 := lt_of_le_of_ne hx h1
      simp [minutes_won, reward_spec, h1, h2, h3]
    · simp [minutes_won, reward_spec, h1, h2]

/-- C6: on every reachable state of a quiz of at most 10 questions the
reward computation realises the spec's tiers, and the boundary scores
behave as claimed: 10 gives 30, 9.5 and 8 give 20, 7.5 gives 0. -/
theorem reward_tiers :
    (∀ (qs : List Question) (s : QuizState), qs ≠ [] → qs.length ≤ 10 →
        Reachable qs s → minutes_won s.score = reward_spec s.score) ∧
    minutes_won 10 = 30 ∧ minutes_won (19 / 2) = 20 ∧
    minutes_won 8 = 20 ∧ minutes_won (15 / 2) = 0 := by
  refine ⟨?_, ?_, ?_, ?_, ?_⟩
  · intro qs s hqs hlen hr
    obtain ⟨hidx, credits, hc, hsum, hclen⟩ := reachable_inv qs s hqs hr
    obtain ⟨-, -, hub⟩ := credits_sum_props credits hc
    have hres : credits.length ≤ qs.length := by
      rw [hclen]
      exact resolved_count_le qs s hidx
    have hscore : s.score ≤ 10 := by
      rw [hsum]
      calc credits.sum ≤ (credits.length : ℚ) := hub
      _ ≤ (qs.length : ℚ) := by exact_mod_cast hres
      _ ≤ 10 := by exact_mod_cast hlen
    exact minutes_won_eq_reward_spec s.score hscore
  · norm_num [minutes_won]
  · norm_num [minutes_won]
  · norm_num [minutes_won]
  · norm_num [minutes_won]

/-- Witness for the reward theorem: the initial state of a one-question
quiz (score 0, reward 0 on both sides). -/
theorem reward_tiers_witness :
    minutes_won initialize_quiz_state.score =
      reward_spec initialize_quiz_state.score :=
  reward_tiers.1 [q0] initialize_quiz_state (List.cons_ne_nil q0 [])
    (by norm_num) Reachable.init

/-- C9: a failed transcript fetch or a failed generation run leaves the
session unusable exactly as before the start attempt — neither the quiz
view nor the results view activates, no questions are stored, and
quiz_started is back to its pre-start value. -/
theorem start_failure_pre_start :
    (∀ (msg : String) (gen : String → Except GenError (List PyValue)),
        quiz_view_active (start_quiz (Except.error msg) gen pre_start) = false ∧
        results_view_active (start_quiz (Except.error msg) gen pre_start) = false ∧
        (start_quiz (Except.error msg) gen pre_start).questions = none ∧
        (start_quiz (Except.error msg) gen pre_start).quiz_started =
          pre_start.quiz_started ∧
        quiz_view_active pre_start = false ∧
        results_view_active pre_start = false) ∧
    (∀ (transcript : String) (gen : String → Except GenError (List PyValue))
        (err : GenError),
        gen transcript = Except.error err →
        quiz_view_active (start_quiz (Except.ok transcript) gen pre_start) = false ∧
        results_view_active (start_quiz (Except.ok transcript) gen pre_start) = false ∧
        (start_quiz (Except.ok transcript) gen pre_start).questions = none ∧
        (start_quiz (Except.ok transcript) gen pre_start).quiz_started =
          pre_start.quiz_started ∧
        quiz_view_active pre_start = false ∧
        results_view_active pre_start = false) := by
  constructor
  · intro msg gen
    exact ⟨rfl, rfl, rfl, rfl, rfl, rfl⟩
  · intro transcript gen err hgen
    refine ⟨?_, ?_, ?_, ?_, rfl, rfl⟩ <;>
      simp [start_quiz, hgen, quiz_view_active, results_view_active,
        initialize_quiz_state_app, pre_start]

/-- Witness for the session-start theorem: a concrete failed generation
run leaves the session unusable. -/
theorem start_failure_pre_start_witness :
    quiz_view_active (start_quiz (Except.ok "t")
        (fun _ => Except.error GenError.type_error) pre_start) = false ∧
    results_view_active (start_quiz (Except.ok "t")
        (fun _ => Except.error GenError.type_error) pre_start) = false ∧
    (start_quiz (Except.ok "t")
        (fun _ => Except.error GenError.type_error) pre_start).questions = none ∧
    (start_quiz (Except.ok "t")
        (fun _ => Except.error GenError.type_error) pre_start).quiz_started =
      pre_start.quiz_started ∧
    quiz_view_active pre_start = false ∧
    results_view_active pre_start = false :=
  start_failure_pre_start.2 "t" (fun _ => Except.error GenError.type_error)
    GenError.type_error rfl
